import Mathlib

/-!
Verification development for the Figma MCP server
(design-tree simplification and annotation pipeline).

Shallow embedding of src/src/server.ts (the /context pipeline:
buildHierarchy, determineIfBackground, findParentFrame, the
get_figma_data tool handler) and src/src/services/openai.ts
(analyzeImageWithOpenAIVision).

Numbers are modelled as rationals, JavaScript objects coming from
JSON.parse as explicit option-typed records, and the two external
network calls (image-URL resolution and the vision model) as function
parameters so that theorems quantify over every possible response.
-/

/-- Bounding box of a design node, the absoluteBoundingBox object of
the Figma API. -/
structure BBox where
  x : ℚ
  y : ℚ
  width : ℚ
  height : ℚ
deriving DecidableEq, Repr

/-- Generic JSON-like value, used for the pass-through attribute bags
(fills, strokes, style, effects) and for the get_figma_data
serialization model. -/
inductive Val where
  | null : Val
  | str : String → Val
  | num : ℚ → Val
  | bool : Bool → Val
  | arr : List Val → Val
  | obj : List (String × Val) → Val

/-- Design node as parsed from the Figma API response
(figmaResponse.nodes[nodeId].document). Absent JSON keys are `none`.
Nodes parsed from the API carry no parent back-reference. -/
inductive FigmaNode where
  | mk
    (id : String)
    (name : Option String)
    (type : String)
    (visible : Option Bool)
    (opacity : Option ℚ)
    (absoluteBoundingBox : Option BBox)
    (characters : Option String)
    (fills : Option Val)
    (strokes : Option Val)
    (style : Option Val)
    (effects : Option Val)
    (children : List FigmaNode)

def FigmaNode.id : FigmaNode → String
  | .mk i _ _ _ _ _ _ _ _ _ _ _ => i

def FigmaNode.name : FigmaNode → Option String
  | .mk _ n _ _ _ _ _ _ _ _ _ _ => n

def FigmaNode.type : FigmaNode → String
  | .mk _ _ t _ _ _ _ _ _ _ _ _ => t

def FigmaNode.visible : FigmaNode → Option Bool
  | .mk _ _ _ v _ _ _ _ _ _ _ _ => v

def FigmaNode.opacity : FigmaNode → Option ℚ
  | .mk _ _ _ _ o _ _ _ _ _ _ _ => o

def FigmaNode.absoluteBoundingBox : FigmaNode → Option BBox
  | .mk _ _ _ _ _ b _ _ _ _ _ _ => b

def FigmaNode.characters : FigmaNode → Option String
  | .mk _ _ _ _ _ _ c _ _ _ _ _ => c

def FigmaNode.fills : FigmaNode → Option Val
  | .mk _ _ _ _ _ _ _ f _ _ _ _ => f

def FigmaNode.strokes : FigmaNode → Option Val
  | .mk _ _ _ _ _ _ _ _ s _ _ _ => s

def FigmaNode.style : FigmaNode → Option Val
  | .mk _ _ _ _ _ _ _ _ _ s _ _ => s

def FigmaNode.effects : FigmaNode → Option Val
  | .mk _ _ _ _ _ _ _ _ _ _ e _ => e

def FigmaNode.children : FigmaNode → List FigmaNode
  | .mk _ _ _ _ _ _ _ _ _ _ _ c => c

/-- Lower-cases the characters of a string, the model of the
JavaScript toLowerCase call (ASCII-accurate, which covers the
substring the classifier searches for). -/
def lowerChars (s : String) : List Char :=
  s.toList.map Char.toLower

/-- Substring search on character lists: true when pat occurs
contiguously in the second argument, the model of the JavaScript
String.prototype.includes call. -/
def hasSubstrList (pat : List Char) : List Char → Bool
  | [] => pat.isEmpty
  | c :: rest => pat.isPrefixOf (c :: rest) || hasSubstrList pat rest

/-- Model of a JavaScript truthiness test on an optional string: an
absent value and the empty string are falsy, every other string is
truthy. -/
def truthyStr : Option String → Bool
  | none => false
  | some s => !(s == "")

/-- Model of the JavaScript idiom (v || dflt) on strings: the default
replaces both an absent and an empty string. -/
def jsStrOr (v : Option String) (dflt : String) : String :=
  match v with
  | some s => if s == "" then dflt else s
  | none => dflt

/-- findParentFrame from src/src/server.ts lines 337-350: returns the
node itself when its type is FRAME, otherwise walks the parent
back-references. Nodes parsed from the Figma API JSON carry no parent
key, so node.parent is always undefined at runtime and the walk
terminates immediately with null. -/
def findParentFrame (node : FigmaNode) : Option FigmaNode :=
  if node.type == "FRAME" then some node else none

/-- determineIfBackground from src/src/server.ts lines 353-389. The
JavaScript guard (!node.absoluteBoundingBox || !frameWidth) rejects a
missing box, a missing frame width and a frame width of 0 (0 is falsy).
Opacity defaults to 1 when absent; the name defaults to the empty
string. The required conditions are width >= frameWidth and
height >= 100; the additional condition is opacity <= 0.6 or the
lower-cased name containing the substring dimm. -/
def determineIfBackground (node : FigmaNode) (frameWidth : Option ℚ) : Bool :=
  match node.absoluteBoundingBox, frameWidth with
  | some bb, some w =>
    if w = 0 then false
    else
      let opacity := node.opacity.getD 1
      let name := lowerChars (jsStrOr node.name "")
      let isWidthSufficient : Bool := decide (bb.width ≥ w)
      let isHeightSufficient : Bool := decide (bb.height ≥ 100)
      if !isWidthSufficient || !isHeightSufficient then false
      else
        let isOpacityLow : Bool := decide (opacity ≤ mkRat 6 10)
        let hasDimmInName : Bool := hasSubstrList "dimm".toList name
        isOpacityLow || hasDimmInName
  | _, _ => false

/-- Modelled from the spec: isVisible is imported from
src/utils/common.ts, which is not part of the provided sources. Per
section 4.1 of the spec a node is invisible exactly when it carries an
explicit visibility flag set to false, so a missing flag counts as
visible. -/
def isVisible (node : FigmaNode) : Bool :=
  node.visible.getD true

/-- Frame-width resolution step of buildHierarchy, src/src/server.ts
lines 207-216: only when the incoming frameWidth is undefined, look up
the containing frame via findParentFrame and, when that frame has a
bounding box, take its width (which may itself be 0). -/
def resolveFrameWidth (fw : Option ℚ) (node : FigmaNode) : Option ℚ :=
  match fw with
  | some w => some w
  | none =>
    match findParentFrame node with
    | some frame =>
      match frame.absoluteBoundingBox with
      | some bb => some bb.width
      | none => none
    | none => none

/-- Simplified output node assembled by buildHierarchy,
src/src/server.ts lines 268-291. Optional keys that the code only
conditionally attaches (image_url, vision_text) are option-typed; the
children key, attached only when non-empty, is the empty list when
absent. -/
inductive SimplifiedNode where
  | mk
    (name : String)
    (type : String)
    (characters : String)
    (position : Option BBox)
    (fills : Val)
    (strokes : Val)
    (style : Val)
    (effects : Val)
    (isBackground : String)
    (image_url : Option String)
    (vision_text : Option String)
    (children : List SimplifiedNode)

def SimplifiedNode.name : SimplifiedNode → String
  | .mk n _ _ _ _ _ _ _ _ _ _ _ => n

def SimplifiedNode.isBackground : SimplifiedNode → String
  | .mk _ _ _ _ _ _ _ _ b _ _ _ => b

def SimplifiedNode.image_url : SimplifiedNode → Option String
  | .mk _ _ _ _ _ _ _ _ _ u _ _ => u

def SimplifiedNode.vision_text : SimplifiedNode → Option String
  | .mk _ _ _ _ _ _ _ _ _ _ v _ => v

def SimplifiedNode.children : SimplifiedNode → List SimplifiedNode
  | .mk _ _ _ _ _ _ _ _ _ _ _ c => c

section Pipeline

variable (imageUrls : String → Option String)
variable (annotate : String → Except String String)

mutual

/-- buildHierarchy from src/src/server.ts lines 198-294. The external
services are parameters: imageUrls is the mapping resolved by
fetchImageUrls, annotate is analyzeImageWithOpenAIVision (an Except
value models the awaited call, error carrying the thrown message that
the try/catch at lines 282-287 turns into the inline failure string).
Returns the simplified node together with the instrumented sequence of
annotation requests actually issued, as (node id, image url) pairs in
call order: the children loop at lines 225-248 runs before the image
block at lines 280-287, so child requests precede the own-node
request. -/
def buildHierarchy (fw0 : Option ℚ) (dimmerFound : Bool) :
    FigmaNode → SimplifiedNode × List (String × String)
  | .mk id nm ty vis op bb chars fl stk sty eff children =>
    let node := FigmaNode.mk id nm ty vis op bb chars fl stk sty eff children
    let fw := resolveFrameWidth fw0 node
    let isCurrentNodeDimmer := determineIfBackground node fw
    let cres := buildChildren fw dimmerFound children false
    let hasDimmerInChildren := cres.2.1
    let backgroundState :=
      if isCurrentNodeDimmer then "dimmer"
      else if dimmerFound || hasDimmerInChildren then "dimmed"
      else "visible"
    let vres : Option String × Option String × List (String × String) :=
      match imageUrls id with
      | some u =>
        if u == "" then (none, none, [])
        else
          match annotate u with
          | .ok t => (some u, some t, [(id, u)])
          | .error msg =>
            (some u, some ("이미지 분석 실패: " ++ msg), [(id, u)])
      | none => (none, none, [])
    (SimplifiedNode.mk (jsStrOr nm "이름 없음") ty (chars.getD "") bb
      (fl.getD (Val.arr [])) (stk.getD (Val.arr []))
      (sty.getD (Val.obj [])) (eff.getD (Val.arr []))
      backgroundState vres.1 vres.2.1 cres.1,
     cres.2.2 ++ vres.2.2)

/-- Children loop of buildHierarchy, src/src/server.ts lines 225-248:
forward iteration, invisible children skipped, each recursive call
receives dimmerFound OR the running hasDimmerInChildren flag, and the
flag is raised when the child result has isBackground dimmer. Returns
the child results, the final flag value, and the concatenated
annotation-request log. -/
def buildChildren (fw : Option ℚ) (dimmerFound : Bool) :
    List FigmaNode → Bool →
    List SimplifiedNode × Bool × List (String × String)
  | [], hasDimmer => ([], hasDimmer, [])
  | c :: rest, hasDimmer =>
    if isVisible c then
      let r := buildHierarchy fw (dimmerFound || hasDimmer) c
      let hasDimmer2 := hasDimmer || (r.1.isBackground == "dimmer")
      let rres := buildChildren fw dimmerFound rest hasDimmer2
      (r.1 :: rres.1, rres.2.1, r.2 ++ rres.2.2)
    else
      buildChildren fw dimmerFound rest hasDimmer

end

end Pipeline

/-- Induction principle for the node tree: to prove a property of
every node it suffices to prove it for a node assuming it for all of
its children. -/
theorem FigmaNode.inductOn (P : FigmaNode → Prop)
    (h : ∀ id nm ty vis op bb chars fl stk sty eff children,
      (∀ c ∈ children, P c) →
      P (FigmaNode.mk id nm ty vis op bb chars fl stk sty eff children)) :
    ∀ n, P n
  | .mk id nm ty vis op bb chars fl stk sty eff children =>
    h id nm ty vis op bb chars fl stk sty eff children
      (fun c hc =>
        have : sizeOf c < sizeOf (FigmaNode.mk id nm ty vis op bb chars fl stk sty eff children) := by
          have hlt := List.sizeOf_lt_of_mem hc
          simp only [FigmaNode.mk.sizeOf_spec]
          omega
        FigmaNode.inductOn P h c)

/-- Classification of a node as seen by buildHierarchy when it is
reached with incoming frame width fw: the classifier applied after the
frame-width resolution step. -/
def classifiedAt (fw : Option ℚ) (n : FigmaNode) : Bool :=
  determineIfBackground n (resolveFrameWidth fw n)

/-- True when some visible direct child of n is classified as a dimmer
under the frame width that n hands down. -/
def hasClassifiedVisibleChild (fw : Option ℚ) (n : FigmaNode) : Bool :=
  n.children.any (fun c => isVisible c && classifiedAt (resolveFrameWidth fw n) c)

/-- Declarative obstruction state of a node reached with incoming
frame width fw and inherited flag d: dimmer exactly when the node is
itself classified; otherwise dimmed exactly when the flag is set or a
visible direct child is classified; otherwise visible. -/
def stateSpec (fw : Option ℚ) (d : Bool) (n : FigmaNode) : String :=
  if classifiedAt fw n then "dimmer"
  else if d || hasClassifiedVisibleChild fw n then "dimmed"
  else "visible"

section SpecSide

variable (imageUrls : String → Option String)
variable (annotate : String → Except String String)

/-- Declarative description of the child outputs of a node: each
visible child is built independently, with inherited flag equal to the
incoming flag OR the existence of an earlier visible sibling that is
itself classified; invisible children are omitted entirely. -/
def childrenSpec (fw : Option ℚ) : List FigmaNode → Bool → List SimplifiedNode
  | [], _ => []
  | c :: rest, d =>
    if isVisible c then
      (buildHierarchy imageUrls annotate fw d c).1 ::
        childrenSpec fw rest (d || classifiedAt fw c)
    else
      childrenSpec fw rest d

end SpecSide

mutual

/-- Declarative description of the annotation requests issued for a
subtree: requests of the visible children in order, then one request
for the node itself exactly when the url mapping has a truthy entry
for its id. -/
def attemptsSpec (iU : String → Option String) : FigmaNode → List (String × String)
  | .mk id _ _ _ _ _ _ _ _ _ _ children =>
    attemptsSpecList iU children ++
      (match iU id with
       | some u => if u == "" then [] else [(id, u)]
       | none => [])

def attemptsSpecList (iU : String → Option String) : List FigmaNode → List (String × String)
  | [] => []
  | c :: rest =>
    (if isVisible c then attemptsSpec iU c else []) ++ attemptsSpecList iU rest

end

mutual

/-- Names of the nodes of an output tree in traversal order. -/
def outputNames : SimplifiedNode → List String
  | .mk nm _ _ _ _ _ _ _ _ _ _ children => nm :: outputNamesList children

def outputNamesList : List SimplifiedNode → List String
  | [] => []
  | s :: rest => outputNames s ++ outputNamesList rest

end

mutual

/-- Obstruction states of the nodes of an output tree in traversal
order. -/
def outStates : SimplifiedNode → List String
  | .mk _ _ _ _ _ _ _ _ b _ _ children => b :: outStatesList children

def outStatesList : List SimplifiedNode → List String
  | [] => []
  | s :: rest => outStates s ++ outStatesList rest

end

mutual

/-- Names of the input nodes that survive the visibility filter: a
node contributes its display name and then its visible children
recursively; the subtree of an invisible child is dropped whole. The
root itself is not filtered. -/
def visibleSubtreeNames : FigmaNode → List String
  | .mk _ nm _ _ _ _ _ _ _ _ _ children =>
    jsStrOr nm "이름 없음" :: visibleSubtreeNamesList children

def visibleSubtreeNamesList : List FigmaNode → List String
  | [] => []
  | c :: rest =>
    (if isVisible c then visibleSubtreeNames c else []) ++
      visibleSubtreeNamesList rest

end

/-- Helper: a frame width of 0 is rejected by the falsy guard of the
classifier, whatever the node looks like. -/
theorem determineIfBackground_zero (n : FigmaNode) :
    determineIfBackground n (some 0) = false := by
  rcases h : n.absoluteBoundingBox with _ | bb <;>
    simp [determineIfBackground, h]

/-- Helper: the declarative state is the string dimmer exactly when
the node is classified. -/
theorem stateSpec_beq_dimmer (fw : Option ℚ) (d : Bool) (n : FigmaNode) :
    (stateSpec fw d n == "dimmer") = classifiedAt fw n := by
  unfold stateSpec
  by_cases h : classifiedAt fw n
  · simp [h]
  · simp only [h, if_neg, Bool.false_eq_true, if_false]
    split <;> decide

/-- Helper: characterization of the children loop, assuming the state
characterization for the members of the list: the final
hasDimmerInChildren flag is the incoming flag OR the existence of a
visible classified member, and the assembled child outputs are the
declarative childrenSpec at the joined flag. -/
theorem buildChildren_char (iU : String → Option String)
    (an : String → Except String String) (fw : Option ℚ)
    (l : List FigmaNode)
    (IH : ∀ c ∈ l, ∀ fw0 d,
      ((buildHierarchy iU an fw0 d c).1).isBackground = stateSpec fw0 d c) :
    ∀ d h,
      (buildChildren iU an fw d l h).2.1
          = (h || l.any (fun c => isVisible c && classifiedAt fw c)) ∧
      (buildChildren iU an fw d l h).1 = childrenSpec iU an fw l (d || h) := by
  induction l with
  | nil => intro d h; simp [buildChildren, childrenSpec]
  | cons c rest ih =>
    intro d h
    have IHc := IH c (by simp)
    have IHrest : ∀ c2 ∈ rest, ∀ fw0 d0,
        ((buildHierarchy iU an fw0 d0 c2).1).isBackground = stateSpec fw0 d0 c2 :=
      fun c2 hc2 => IH c2 (by simp [hc2])
    by_cases hv : isVisible c
    · have hbeq : (((buildHierarchy iU an fw (d || h) c).1).isBackground == "dimmer")
          = classifiedAt fw c := by
        rw [IHc fw (d || h), stateSpec_beq_dimmer]
      have ihr := ih IHrest d (h || classifiedAt fw c)
      constructor
      · simp only [buildChildren, hv, if_true, hbeq]
        rw [ihr.1]
        simp [List.any_cons, hv, Bool.or_assoc]
      · simp only [buildChildren, hv, if_true, hbeq]
        rw [ihr.2]
        simp only [childrenSpec, hv, if_true, Bool.or_assoc]
    · have hvb : isVisible c = false := by
        revert hv; cases isVisible c <;> simp
      have ihr := ih IHrest d h
      constructor
      · simp only [buildChildren, hvb, Bool.false_eq_true, if_false, ihr.1,
          List.any_cons, Bool.false_and, Bool.false_or]
      · simp only [buildChildren, hvb, Bool.false_eq_true, if_false, ihr.2,
          childrenSpec]

/-- Helper: full characterization of the walker on every node: the
obstruction state equals the declarative stateSpec, and the child list
equals the declarative childrenSpec at the resolved frame width. -/
theorem buildHierarchy_char (iU : String → Option String)
    (an : String → Except String String) :
    ∀ n : FigmaNode, ∀ (fw0 : Option ℚ) (d : Bool),
      ((buildHierarchy iU an fw0 d n).1).isBackground = stateSpec fw0 d n ∧
      ((buildHierarchy iU an fw0 d n).1).children
        = childrenSpec iU an (resolveFrameWidth fw0 n) n.children d := by
  intro n
  induction n using FigmaNode.inductOn with
  | h id nm ty vis op bb chars fl stk sty eff children IH =>
    intro fw0 d
    have IHstates : ∀ c ∈ children, ∀ fw1 d1,
        ((buildHierarchy iU an fw1 d1 c).1).isBackground = stateSpec fw1 d1 c :=
      fun c hc fw1 d1 => (IH c hc fw1 d1).1
    have hbc := buildChildren_char iU an
      (resolveFrameWidth fw0 (FigmaNode.mk id nm ty vis op bb chars fl stk sty eff children))
      children IHstates d false
    constructor
    · simp only [buildHierarchy, SimplifiedNode.isBackground]
      rw [hbc.1]
      simp only [Bool.false_or, stateSpec, classifiedAt,
        hasClassifiedVisibleChild, FigmaNode.children]
    · simp only [buildHierarchy, SimplifiedNode.children]
      rw [hbc.2]
      simp only [Bool.or_false, FigmaNode.children]

/-- Helper: one-step unfolding of the image block of buildHierarchy,
lines 280-287 of src/src/server.ts: both optional output fields are
driven purely by the truthiness of the resolved url of the node, the
annotation value being the success text or the inline failure string. -/
theorem buildHierarchy_image (iU : String → Option String)
    (an : String → Except String String) (fw0 : Option ℚ) (d : Bool)
    (n : FigmaNode) :
    ((buildHierarchy iU an fw0 d n).1).image_url
        = (match iU n.id with
           | some u => if u == "" then none else some u
           | none => none) ∧
    ((buildHierarchy iU an fw0 d n).1).vision_text
        = (match iU n.id with
           | some u =>
             if u == "" then none
             else
               match an u with
               | .ok t => some t
               | .error msg => some ("이미지 분석 실패: " ++ msg)
           | none => none) := by
  rcases n with ⟨id, nm, ty, vis, op, bb, chars, fl, stk, sty, eff, children⟩
  simp only [buildHierarchy, SimplifiedNode.image_url, SimplifiedNode.vision_text,
    FigmaNode.id]
  rcases hu : iU id with _ | u
  · simp
  · by_cases he : u == ""
    · simp [he]
    · have heb : (u == "") = false := by
        revert he; cases u == "" <;> simp
      rcases ha : an u with t | msg <;> simp [heb, ha]

/-- Helper: the annotation-request log of the children loop is the
declarative attemptsSpecList, assuming the same for each member. -/
theorem buildChildren_attempts (iU : String → Option String)
    (an : String → Except String String) (fw : Option ℚ)
    (l : List FigmaNode)
    (IH : ∀ c ∈ l, ∀ fw0 d,
      (buildHierarchy iU an fw0 d c).2 = attemptsSpec iU c) :
    ∀ d h, (buildChildren iU an fw d l h).2.2 = attemptsSpecList iU l := by
  induction l with
  | nil => intro d h; simp [buildChildren, attemptsSpecList]
  | cons c rest ih =>
    intro d h
    have IHrest : ∀ c2 ∈ rest, ∀ fw0 d0,
        (buildHierarchy iU an fw0 d0 c2).2 = attemptsSpec iU c2 :=
      fun c2 hc2 => IH c2 (by simp [hc2])
    by_cases hv : isVisible c
    · simp only [buildChildren, hv, if_true, attemptsSpecList,
        IH c (by simp) fw (d || h), ih IHrest d _]
    · have hvb : isVisible c = false := by
        revert hv; cases isVisible c <;> simp
      simp only [buildChildren, hvb, Bool.false_eq_true, if_false,
        attemptsSpecList, ih IHrest d h, List.nil_append]

/-- Helper: the annotation-request log of the walker is exactly the
declarative attemptsSpec: one request per traversed node with a truthy
resolved url, children first, no retries. -/
theorem buildHierarchy_attempts (iU : String → Option String)
    (an : String → Except String String) :
    ∀ n : FigmaNode, ∀ (fw0 : Option ℚ) (d : Bool),
      (buildHierarchy iU an fw0 d n).2 = attemptsSpec iU n := by
  intro n
  induction n using FigmaNode.inductOn with
  | h id nm ty vis op bb chars fl stk sty eff children IH =>
    intro fw0 d
    have hbc := buildChildren_attempts iU an
      (resolveFrameWidth fw0 (FigmaNode.mk id nm ty vis op bb chars fl stk sty eff children))
      children (fun c hc => IH c hc) d false
    simp only [buildHierarchy, attemptsSpec, hbc]
    rcases hu : iU id with _ | u
    · simp
    · by_cases he : u == ""
      · simp [he]
      · have heb : (u == "") = false := by
          revert he; cases u == "" <;> simp
        rcases ha : an u with t | msg <;> simp [heb, ha]

/-- Helper: the names of the child outputs are the recursively
visibility-filtered names of the input children, assuming the same
for each member. -/
theorem buildChildren_names (iU : String → Option String)
    (an : String → Except String String) (fw : Option ℚ)
    (l : List FigmaNode)
    (IH : ∀ c ∈ l, ∀ fw0 d,
      outputNames (buildHierarchy iU an fw0 d c).1 = visibleSubtreeNames c) :
    ∀ d h,
      outputNamesList (buildChildren iU an fw d l h).1
        = visibleSubtreeNamesList l := by
  induction l with
  | nil => intro d h; simp [buildChildren, outputNamesList, visibleSubtreeNamesList]
  | cons c rest ih =>
    intro d h
    have IHrest : ∀ c2 ∈ rest, ∀ fw0 d0,
        outputNames (buildHierarchy iU an fw0 d0 c2).1 = visibleSubtreeNames c2 :=
      fun c2 hc2 => IH c2 (by simp [hc2])
    by_cases hv : isVisible c
    · simp only [buildChildren, hv, if_true, outputNamesList,
        visibleSubtreeNamesList, IH c (by simp) fw (d || h), ih IHrest d _]
    · have hvb : isVisible c = false := by
        revert hv; cases isVisible c <;> simp
      simp only [buildChildren, hvb, Bool.false_eq_true, if_false,
        visibleSubtreeNamesList, ih IHrest d h, List.nil_append]

/-- Helper: the names appearing in the output tree are exactly the
display names of the root and of its recursively visibility-filtered
descendants. -/
theorem buildHierarchy_names (iU : String → Option String)
    (an : String → Except String String) :
    ∀ n : FigmaNode, ∀ (fw0 : Option ℚ) (d : Bool),
      outputNames (buildHierarchy iU an fw0 d n).1 = visibleSubtreeNames n := by
  intro n
  induction n using FigmaNode.inductOn with
  | h id nm ty vis op bb chars fl stk sty eff children IH =>
    intro fw0 d
    have hbc := buildChildren_names iU an
      (resolveFrameWidth fw0 (FigmaNode.mk id nm ty vis op bb chars fl stk sty eff children))
      children (fun c hc => IH c hc) d false
    simp only [buildHierarchy, outputNames, visibleSubtreeNames, hbc]

/-- Helper: with an incoming frame width of 0 the children loop emits
no dimmer state, assuming the same for each member. -/
theorem buildChildren_no_dimmer_zero (iU : String → Option String)
    (an : String → Except String String)
    (l : List FigmaNode)
    (IH : ∀ c ∈ l, ∀ d,
      ¬ "dimmer" ∈ outStates (buildHierarchy iU an (some 0) d c).1) :
    ∀ d h,
      ¬ "dimmer" ∈ outStatesList (buildChildren iU an (some 0) d l h).1 := by
  induction l with
  | nil => intro d h; simp [buildChildren, outStatesList]
  | cons c rest ih =>
    intro d h
    have IHrest : ∀ c2 ∈ rest, ∀ d0,
        ¬ "dimmer" ∈ outStates (buildHierarchy iU an (some 0) d0 c2).1 :=
      fun c2 hc2 => IH c2 (by simp [hc2])
    by_cases hv : isVisible c
    · simp only [buildChildren, hv, if_true, outStatesList, List.mem_append]
      push_neg
      exact ⟨IH c (by simp) (d || h), ih IHrest d _⟩
    · have hvb : isVisible c = false := by
        revert hv; cases isVisible c <;> simp
      simp only [buildChildren, hvb, Bool.false_eq_true, if_false]
      exact ih IHrest d h

/-- Helper: a subtree reached with frame width 0 contains no node in
the dimmer state: the width-0 guard of the classifier rejects every
node, and width 0 is handed down unchanged. -/
theorem buildHierarchy_no_dimmer_zero (iU : String → Option String)
    (an : String → Except String String) :
    ∀ n : FigmaNode, ∀ d : Bool,
      ¬ "dimmer" ∈ outStates (buildHierarchy iU an (some 0) d n).1 := by
  intro n
  induction n using FigmaNode.inductOn with
  | h id nm ty vis op bb chars fl stk sty eff children IH =>
    intro d
    have hres : resolveFrameWidth (some 0)
        (FigmaNode.mk id nm ty vis op bb chars fl stk sty eff children) = some 0 := rfl
    have hcls : determineIfBackground
        (FigmaNode.mk id nm ty vis op bb chars fl stk sty eff children)
        (some 0) = false :=
      determineIfBackground_zero _
    have hbc := buildChildren_no_dimmer_zero iU an children
      (fun c hc => IH c hc) d false
    simp only [buildHierarchy, outStates, hres, hcls, Bool.false_eq_true,
      if_false, List.mem_cons]
    push_neg
    refine ⟨?_, hbc⟩
    split <;> decide

/-- Name condition of the classifier in isolation: the lower-cased
name of the node (defaulting to the empty string) contains the
substring dimm. -/
def nameContainsDimm (n : FigmaNode) : Bool :=
  hasSubstrList "dimm".toList (lowerChars (jsStrOr n.name ""))

/-- HTTP response of the vision service as seen by
analyzeImageWithOpenAIVision in src/src/services/openai.ts: the ok
flag, the body text used in the thrown error when not ok, and the
optional chain data.choices[0].message.content of the parsed body. -/
structure VisionResponse where
  ok : Bool
  errorText : String
  content : Option String

/-- analyzeImageWithOpenAIVision from src/src/services/openai.ts lines
20-37, as a function of the response the service returns for the
request: a non-ok response throws (models the thrown Error with its
message), an ok response yields choices[0].message.content or the
empty string when that chain is absent. -/
def analyzeImageWithOpenAIVision (resp : VisionResponse) : Except String String :=
  if resp.ok then Except.ok (resp.content.getD "")
  else Except.error ("OpenAI Vision API call failed: " ++ resp.errorText)

/-- JavaScript object as an ordered key-value list (first occurrence
of a key wins on lookup). -/
abbrev JsObj := List (String × Val)

/-- Property lookup on the object model; an absent key reads as the
JavaScript undefined, modelled by the null value. -/
def lookupJs (o : JsObj) (k : String) : Val :=
  match o.find? (fun kv => kv.1 == k) with
  | some kv => kv.2
  | none => Val.null

/-- Serialization step of the get_figma_data handler,
src/src/server.ts lines 61-62: rest-destructuring
(nodes, globalVars, ...metadata) of the fetched design followed by
reassembly as an object with the keys metadata, nodes, globalVars. -/
def getFigmaDataResult (file : JsObj) : JsObj :=
  [("metadata",
     Val.obj (file.filter (fun kv => !(kv.1 == "nodes") && !(kv.1 == "globalVars")))),
   ("nodes", lookupJs file "nodes"),
   ("globalVars", lookupJs file "globalVars")]

/-- Tool result shape of the MCP handler: the isError flag and the
text payloads of the content array. -/
structure ToolResult where
  isError : Bool
  contentTexts : List String
deriving DecidableEq, Repr

/-- get_figma_data handler from src/src/server.ts lines 53-71, with
the fetch outcome (getNode or getFile) and the yaml.dump encoder as
parameters: on success the yaml dump of the reassembled document is
the single text content, on a fetch failure the catch block returns a
single error content and no tree. -/
def handleGetFigmaData (yamlDump : JsObj → String)
    (fetched : Except String JsObj) : ToolResult :=
  match fetched with
  | .ok file => { isError := false, contentTexts := [yamlDump (getFigmaDataResult file)] }
  | .error e => { isError := true, contentTexts := ["Error fetching file: " ++ e] }

/-- Test fixture: url mapping with no entries. -/
def cexUrls : String → Option String := fun _ => none

/-- Test fixture: annotation service returning a fixed text. -/
def okAnn : String → Except String String := fun _ => Except.ok "desc"

/-- Test fixture: fallback node for list indexing in concrete
statements. -/
def cexDummy : SimplifiedNode :=
  .mk "" "" "" none Val.null Val.null Val.null Val.null "" none none []

/-- Test fixture: plain text node with no bounding box. -/
def cexInner : FigmaNode :=
  .mk "1:3" (some "Inner Text") "TEXT" none none none none none none none none []

/-- Test fixture: full-width, 30 percent opacity backdrop holding
cexInner as its only child; classified as a dimmer inside a frame of
width 400. -/
def cexDimmer : FigmaNode :=
  .mk "1:2" (some "Modal Backdrop") "RECTANGLE" none (some (mkRat 3 10))
    (some ⟨0, 0, 400, 200⟩) none none none none none [cexInner]

/-- Test fixture: 400 by 800 frame holding cexDimmer as its only
child. -/
def cexRoot : FigmaNode :=
  .mk "1:1" (some "Root Frame") "FRAME" none none (some ⟨0, 0, 400, 800⟩)
    none none none none none [cexDimmer]

/-- Test fixture: root node carrying an explicit visibility flag set
to false. -/
def hiddenRoot : FigmaNode :=
  .mk "2:1" (some "Hidden Root") "RECTANGLE" (some false) none none
    none none none none none []

/-- Test fixture: node named Overlay Background with a full-width box
of height 100 and opacity 1. -/
def overlayBgNode : FigmaNode :=
  .mk "3:1" (some "Overlay Background") "RECTANGLE" none (some 1)
    (some ⟨0, 0, 400, 100⟩) none none none none none []

/-- Test fixture: node named Dimmed Background with a full-width box
of height 100 and opacity 1. -/
def dimmedBgNode : FigmaNode :=
  .mk "3:2" (some "Dimmed Background") "RECTANGLE" none (some 1)
    (some ⟨0, 0, 400, 100⟩) none none none none none []

/-- Test fixture: node with a full-width box of height 99 and low
opacity. -/
def shortBoxNode : FigmaNode :=
  .mk "3:3" (some "dimm layer") "RECTANGLE" none (some (mkRat 1 10))
    (some ⟨0, 0, 400, 99⟩) none none none none none []

/-- C2: the overlay classification predicate returns true exactly when
the node has a bounding box, the frame width is known (present and
non-zero, the falsy guard), the box width is at least the frame width,
the box height is at least 100, and additionally the opacity
(defaulting to 1 when absent) is at most 0.6 or the name contains the
case-insensitive substring dimm; in every other case it returns false
and no error is raised (the classifier is a total function). -/
theorem overlay_classifier_iff (n : FigmaNode) (fw : Option ℚ) :
    determineIfBackground n fw = true ↔
      ∃ bb w, n.absoluteBoundingBox = some bb ∧ fw = some w ∧ ¬ w = 0 ∧
        w ≤ bb.width ∧ (100 : ℚ) ≤ bb.height ∧
        (n.opacity.getD 1 ≤ mkRat 6 10 ∨ nameContainsDimm n = true) := by
  rcases hbb : n.absoluteBoundingBox with _ | bb
  · simp [determineIfBackground, hbb]
  · rcases hfw : fw with _ | w
    · simp [determineIfBackground, hbb]
    · by_cases hw : w = 0
      · subst hw
        simp [determineIfBackground, hbb]
      · by_cases h1 : w ≤ bb.width <;> by_cases h2 : (100 : ℚ) ≤ bb.height <;>
          simp [determineIfBackground, nameContainsDimm, hbb, hw, h1, h2,
            ge_iff_le]

/-- C3 counterexample: a node with a full-width bounding box of height
100, opacity 1 and the name Overlay Background, inside a frame of
width 400, is NOT classified as an overlay, because the name condition
of the implemented classifier is the substring dimm (case-insensitive)
and overlay background does not contain it, while opacity 1 fails the
opacity condition. -/
theorem overlay_bg_name_cex :
    determineIfBackground overlayBgNode (some 400) = false ∧
    nameContainsDimm overlayBgNode = false := by
  decide

/-- C3 (amended): the name-match branch of the boundary test requires
a name containing the case-insensitive substring dimm, not the name
Overlay Background: a node with bounding box width W, height 100 and
opacity 1 inside a frame of width W (W non-zero) is classified as an
overlay exactly when its name contains dimm; and a node with a
bounding box of width W and height 99 inside a frame of width W is
never classified as an overlay, for every opacity and every name. -/
theorem overlay_boundary_amended
    (n : FigmaNode) (w x y : ℚ) (hw : ¬ w = 0)
    (hbb : n.absoluteBoundingBox = some ⟨x, y, w, 100⟩)
    (_hop : n.opacity = some 1)
    (hnm : nameContainsDimm n = true) :
    determineIfBackground n (some w) = true ∧
    ∀ (m : FigmaNode) (xm ym wm : ℚ),
      m.absoluteBoundingBox = some ⟨xm, ym, wm, 99⟩ →
      determineIfBackground m (some w) = false := by
  constructor
  · rw [overlay_classifier_iff]
    refine ⟨⟨x, y, w, 100⟩, w, hbb, rfl, hw, le_refl w, le_refl 100, Or.inr hnm⟩
  · intro m xm ym wm hm
    rcases hdet : determineIfBackground m (some w) with _ | _
    · rfl
    · exfalso
      rw [overlay_classifier_iff] at hdet
      rcases hdet with ⟨bb2, w2, hbb2, hw2, _, _, hh, _⟩
      rw [hm] at hbb2
      cases hbb2
      exact absurd hh (by norm_num)

/-- C3 witness: the amended boundary at concrete values: the node
named Dimmed Background (width 400, height 100, opacity 1) in a frame
of width 400 classifies as an overlay, and the height-99 node does
not. -/
theorem overlay_boundary_amended_witness :
    determineIfBackground dimmedBgNode (some 400) = true ∧
    determineIfBackground shortBoxNode (some 400) = false := by
  have h := overlay_boundary_amended dimmedBgNode 400 0 0 (by decide)
    (by decide) (by decide) (by decide)
  exact ⟨h.1, h.2 shortBoxNode 0 0 400 (by decide)⟩

/-- C1 counterexample: in the tree frame(400x800) > backdrop(dimmer
classified) > inner text node, the backdrop is in state dimmer but its
child — a descendant of an overlay-classified node — ends in state
visible, not obstructed, and meanwhile the PARENT frame of the backdrop
ends in state dimmed: the implemented propagation dims the parent and
later siblings of an overlay, not its descendants, refuting the claim
that every descendant of an overlay-classified node is obstructed. -/
theorem overlay_descendant_cex :
    (((buildHierarchy cexUrls okAnn none false cexRoot).1).children.headD
        cexDummy).isBackground = "dimmer" ∧
    ((((buildHierarchy cexUrls okAnn none false cexRoot).1).children.headD
        cexDummy).children.headD cexDummy).isBackground = "visible" ∧
    ((buildHierarchy cexUrls okAnn none false cexRoot).1).isBackground
      = "dimmed" ∧
    ¬ "visible" = "dimmed" := by
  decide

/-- C1 (amended): the final obstruction state of every node is dimmer
exactly when the classification predicate holds for it (after
frame-width resolution); otherwise it is dimmed exactly when the
inherited flag is set or one of its own visible direct children is
classified; otherwise visible. The children of a node are built
independently with the inherited flag of a child being the incoming
flag of the parent OR the existence of an earlier visible sibling that
is classified — so an overlay obstructs its parent and its later
siblings and their subtrees, while a descendant of an overlay node is
not obstructed on that account and is overlay exactly when it is
independently classified. -/
theorem obstruction_state_amended (iU : String → Option String)
    (an : String → Except String String) (fw0 : Option ℚ) (d : Bool)
    (n : FigmaNode) :
    (((buildHierarchy iU an fw0 d n).1).isBackground = "dimmer"
        ↔ classifiedAt fw0 n = true) ∧
    (((buildHierarchy iU an fw0 d n).1).isBackground = "dimmed"
        ↔ (classifiedAt fw0 n = false ∧
            (d = true ∨ hasClassifiedVisibleChild fw0 n = true))) ∧
    (((buildHierarchy iU an fw0 d n).1).isBackground = "visible"
        ↔ (classifiedAt fw0 n = false ∧ d = false ∧
            hasClassifiedVisibleChild fw0 n = false)) ∧
    ((buildHierarchy iU an fw0 d n).1).children
        = childrenSpec iU an (resolveFrameWidth fw0 n) n.children d := by
  have h := buildHierarchy_char iU an n fw0 d
  refine ⟨?_, ?_, ?_, h.2⟩ <;> rw [h.1] <;> unfold stateSpec <;>
    rcases hc : classifiedAt fw0 n with _ | _ <;>
    rcases hd : d with _ | _ <;>
    rcases hv : hasClassifiedVisibleChild fw0 n with _ | _ <;>
    simp [hc, hd, hv]

/-- C5 counterexample: the top-level node handed to the walker is
never visibility-filtered: a root carrying an explicit visibility flag
set to false still appears in the simplified output, refuting the
claim for the root position. -/
theorem invisible_root_cex :
    hiddenRoot.visible = some false ∧
    outputNames ((buildHierarchy cexUrls okAnn none false hiddenRoot).1)
      = ["Hidden Root"] := by
  decide

/-- C5 (amended): the nodes of the simplified output are exactly the
root (emitted unconditionally, even when itself invisible) together
with its recursively visibility-filtered descendants: every non-root
node carrying an explicit visibility flag set to false is excluded
together with its entire subtree, with no partial promotion of its
visible descendants. -/
theorem visibility_filter_amended (iU : String → Option String)
    (an : String → Except String String) (fw0 : Option ℚ) (d : Bool)
    (n : FigmaNode) :
    outputNames (buildHierarchy iU an fw0 d n).1 = visibleSubtreeNames n :=
  buildHierarchy_names iU an n fw0 d

/-- C9: a resolved frame width of 0 is rejected by the classifier
guard exactly like an absent frame width (both return false for every
node), and consequently no node of a subtree walked with frame width 0
is ever in the overlay state. -/
theorem zero_width_frame_no_overlay :
    (∀ n : FigmaNode, determineIfBackground n (some 0) = false ∧
        determineIfBackground n none = false) ∧
    (∀ (iU : String → Option String) (an : String → Except String String)
        (d : Bool) (n : FigmaNode),
        ¬ "dimmer" ∈ outStates (buildHierarchy iU an (some 0) d n).1) := by
  constructor
  · intro n
    refine ⟨determineIfBackground_zero n, ?_⟩
    rcases h : n.absoluteBoundingBox with _ | bb <;>
      simp [determineIfBackground, h]
  · intro iU an d n
    exact buildHierarchy_no_dimmer_zero iU an n d

/-- Test fixture: image-bearing node with id a. -/
def scA : FigmaNode :=
  .mk "a" (some "Image A") "RECTANGLE" none none none none none none none none []

/-- Test fixture: image-bearing node with id b. -/
def scB : FigmaNode :=
  .mk "b" (some "Image B") "RECTANGLE" none none none none none none none none []

/-- Test fixture: 400 by 800 frame holding the two image-bearing
nodes. -/
def scRoot : FigmaNode :=
  .mk "root" (some "Scenario Root") "FRAME" none none (some ⟨0, 0, 400, 800⟩)
    none none none none none [scA, scB]

/-- Test fixture: url mapping resolving exactly the ids a and b. -/
def scURLs : String → Option String := fun id =>
  if id == "a" then some "https://img/a"
  else if id == "b" then some "https://img/b"
  else none

/-- Helper: the two scenario children are built independently at frame
width 400. -/
theorem scenario_children (an : String → Except String String) :
    ((buildHierarchy scURLs an none false scRoot).1).children
      = [(buildHierarchy scURLs an (some 400) false scA).1,
         (buildHierarchy scURLs an (some 400) false scB).1] := by
  have hch := (buildHierarchy_char scURLs an scRoot none false).2
  rw [hch]
  have hres : resolveFrameWidth none scRoot = some 400 := rfl
  have hchl : scRoot.children = [scA, scB] := rfl
  rw [hres, hchl]
  have hva : isVisible scA = true := rfl
  have hca : classifiedAt (some 400) scA = false := rfl
  have hvb : isVisible scB = true := rfl
  simp only [childrenSpec, hva, hvb, if_true, hca, Bool.or_false]

/-- C4: annotation failures are contained per node: in general the
annotation-request log of the walker equals the declarative
attemptsSpec (exactly one request per traversed node with a truthy
resolved url, no retries, and the walk is a total function that never
aborts); and in the two-image scenario where the service fails for the
first url and succeeds for the second, the output is a complete tree
whose first child carries the inline failure string and whose second
child carries the returned annotation, with exactly one request per
node. -/
theorem annotation_failure_contained
    (an : String → Except String String) (m t : String)
    (hfail : an "https://img/a" = Except.error m)
    (hok : an "https://img/b" = Except.ok t) :
    (∀ (iU : String → Option String) (an2 : String → Except String String)
        (fw0 : Option ℚ) (d : Bool) (n : FigmaNode),
        (buildHierarchy iU an2 fw0 d n).2 = attemptsSpec iU n) ∧
    outputNames (buildHierarchy scURLs an none false scRoot).1
      = ["Scenario Root", "Image A", "Image B"] ∧
    (((buildHierarchy scURLs an none false scRoot).1).children.headD
        cexDummy).vision_text = some ("이미지 분석 실패: " ++ m) ∧
    (((buildHierarchy scURLs an none false scRoot).1).children.getD 1
        cexDummy).vision_text = some t ∧
    (buildHierarchy scURLs an none false scRoot).2
      = [("a", "https://img/a"), ("b", "https://img/b")] := by
  have hA := (buildHierarchy_image scURLs an (some 400) false scA).2
  have hB := (buildHierarchy_image scURLs an (some 400) false scB).2
  have hua : scURLs scA.id = some "https://img/a" := rfl
  have hub : scURLs scB.id = some "https://img/b" := rfl
  simp only [hua, hfail] at hA
  simp only [hub, hok] at hB
  norm_num at hA hB
  refine ⟨fun iU an2 fw0 d n => buildHierarchy_attempts iU an2 n fw0 d,
    (buildHierarchy_names scURLs an scRoot none false).trans (by decide),
    ?_, ?_, (buildHierarchy_attempts scURLs an scRoot none false).trans
      (by decide)⟩
  · rw [scenario_children an]
    simpa using hA
  · rw [scenario_children an]
    simpa using hB

/-- C4 witness: the scenario at a concrete annotation service that
fails on the first url and succeeds on the second. -/
theorem annotation_failure_contained_witness :
    (((buildHierarchy scURLs
        (fun u => if u == "https://img/a" then Except.error "boom"
                  else Except.ok "desc")
        none false scRoot).1).children.headD cexDummy).vision_text
      = some ("이미지 분석 실패: " ++ "boom") ∧
    (((buildHierarchy scURLs
        (fun u => if u == "https://img/a" then Except.error "boom"
                  else Except.ok "desc")
        none false scRoot).1).children.getD 1 cexDummy).vision_text
      = some "desc" := by
  have h := annotation_failure_contained
    (fun u => if u == "https://img/a" then Except.error "boom"
              else Except.ok "desc")
    "boom" "desc" (by rfl) (by rfl)
  exact ⟨h.2.2.1, h.2.2.2.1⟩

/-- C6: a simplified node carries the image url and the annotation
field exactly when a truthy image url was resolved for its identifier:
with a resolved non-empty url both fields are present (the url
verbatim, the annotation some text); with no truthy url both fields
are absent — none, not an empty value — and the node issues no
annotation request of its own (the request log of its subtree is
exactly that of its children). -/
theorem image_fields_iff (iU : String → Option String)
    (an : String → Except String String) (fw0 : Option ℚ) (d : Bool)
    (n : FigmaNode) :
    (∀ u, iU n.id = some u → ¬ u = "" →
      ((buildHierarchy iU an fw0 d n).1).image_url = some u ∧
      ∃ t, ((buildHierarchy iU an fw0 d n).1).vision_text = some t) ∧
    (truthyStr (iU n.id) = false →
      ((buildHierarchy iU an fw0 d n).1).image_url = none ∧
      ((buildHierarchy iU an fw0 d n).1).vision_text = none ∧
      (buildHierarchy iU an fw0 d n).2 = attemptsSpecList iU n.children) := by
  have him := buildHierarchy_image iU an fw0 d n
  constructor
  · intro u hu hne
    have hbe : (u == "") = false := by
      cases hb : u == ""
      · rfl
      · exact absurd (by simpa using hb) hne
    constructor
    · rw [him.1, hu]
      simp [hbe]
    · rw [him.2, hu]
      rcases ha : an u with msg | t
      · exact ⟨"이미지 분석 실패: " ++ msg, by simp [hbe, ha]⟩
      · exact ⟨t, by simp [hbe, ha]⟩
  · intro htr
    have hatt := buildHierarchy_attempts iU an n fw0 d
    rcases n with ⟨id, nm, ty, vis, op, bb, chars, fl, stk, sty, eff, children⟩
    simp only [FigmaNode.id] at him htr
    rcases hu : iU id with _ | u
    · rw [hu] at him htr
      refine ⟨by simp [him.1], by simp [him.2], ?_⟩
      rw [hatt]
      simp [attemptsSpec, hu, FigmaNode.children]
    · rw [hu] at him htr
      have hbe : (u == "") = true := by
        simpa [truthyStr] using htr
      refine ⟨by simp [him.1, hbe], by simp [him.2, hbe], ?_⟩
      rw [hatt]
      simp [attemptsSpec, hu, hbe, FigmaNode.children]

/-- C6 witness: the fields at concrete nodes: the image-bearing node
scA carries both fields, the url-less node hiddenRoot carries
neither. -/
theorem image_fields_iff_witness :
    ((buildHierarchy scURLs okAnn none false scA).1).image_url
        = some "https://img/a" ∧
    (∃ t, ((buildHierarchy scURLs okAnn none false scA).1).vision_text
        = some t) ∧
    ((buildHierarchy scURLs okAnn none false hiddenRoot).1).image_url
        = none ∧
    ((buildHierarchy scURLs okAnn none false hiddenRoot).1).vision_text
        = none := by
  have h1 := (image_fields_iff scURLs okAnn none false scA).1
    "https://img/a" (by rfl) (by decide)
  have h2 := (image_fields_iff scURLs okAnn none false hiddenRoot).2
    (by rfl)
  exact ⟨h1.1, h1.2, h2.1, h2.2.1⟩

/-- C10: an ok response of the vision service whose parsed body has no
choices[0].message.content makes analyzeImageWithOpenAIVision return
the empty string, and the annotation field of the requesting node is
then set to the empty string — present, neither a failure marker nor
absent. -/
theorem vision_ok_no_content_empty_text
    (responses : String → VisionResponse)
    (iU : String → Option String) (fw0 : Option ℚ) (d : Bool)
    (n : FigmaNode) (u : String)
    (hu : iU n.id = some u) (hne : ¬ u = "")
    (hok : (responses u).ok = true) (hc : (responses u).content = none) :
    analyzeImageWithOpenAIVision (responses u) = Except.ok "" ∧
    ((buildHierarchy iU (fun v => analyzeImageWithOpenAIVision (responses v))
        fw0 d n).1).vision_text = some "" := by
  have hana : analyzeImageWithOpenAIVision (responses u) = Except.ok "" := by
    unfold analyzeImageWithOpenAIVision
    simp [hok, hc]
  refine ⟨hana, ?_⟩
  have him := (buildHierarchy_image iU
    (fun v => analyzeImageWithOpenAIVision (responses v)) fw0 d n).2
  rw [him, hu]
  have hbe : (u == "") = false := by
    cases hb : u == ""
    · rfl
    · exact absurd (by simpa using hb) hne
  simp [hbe, hana]

/-- C10 witness: the empty annotation at a concrete all-ok
content-free vision service and the concrete image-bearing node. -/
theorem vision_empty_content_witness :
    analyzeImageWithOpenAIVision
        ((fun _ => VisionResponse.mk true "" none) "https://img/a")
      = Except.ok "" ∧
    ((buildHierarchy scURLs
        (fun v => analyzeImageWithOpenAIVision
          ((fun _ => VisionResponse.mk true "" none) v))
        none false scA).1).vision_text = some "" := by
  have h := vision_ok_no_content_empty_text
    (fun _ => VisionResponse.mk true "" none) scURLs none false scA
    "https://img/a" (by rfl) (by decide) (by rfl) (by rfl)
  exact ⟨h.1, h.2⟩

/-- C7: the document serialized by the get_figma_data handler has
exactly the three top-level keys metadata, nodes and globalVars, in
that order, and the metadata object consists of exactly the fields of
the fetched simplified design other than nodes and globalVars. -/
theorem serialized_doc_three_keys (file : JsObj) :
    (getFigmaDataResult file).map Prod.fst
        = ["metadata", "nodes", "globalVars"] ∧
    ∃ md, getFigmaDataResult file
        = [("metadata", Val.obj md), ("nodes", lookupJs file "nodes"),
           ("globalVars", lookupJs file "globalVars")] ∧
      ∀ k v, ((k, v) ∈ md ↔
        ((k, v) ∈ file ∧ ¬ k = "nodes" ∧ ¬ k = "globalVars")) := by
  refine ⟨rfl, _, rfl, ?_⟩
  intro k v
  simp [List.mem_filter]

/-- C8: a failing document or node fetch makes the get_figma_data
handler return a single structured error result — the isError flag set
and exactly one content text, the error message — and no serialized
tree accompanies it: the error result differs from the handler output
on every successfully fetched file. -/
theorem fetch_failure_single_error (yamlDump : JsObj → String) (e : String) :
    handleGetFigmaData yamlDump (Except.error e)
        = { isError := true,
            contentTexts := ["Error fetching file: " ++ e] } ∧
    (handleGetFigmaData yamlDump (Except.error e)).contentTexts.length = 1 ∧
    ∀ file : JsObj, ¬ handleGetFigmaData yamlDump (Except.error e)
        = handleGetFigmaData yamlDump (Except.ok file) := by
  refine ⟨rfl, rfl, ?_⟩
  intro file h
  have hflag := congrArg ToolResult.isError h
  simp [handleGetFigmaData] at hflag

/-- C2 witness: the classifier equivalence applied at the concrete
backdrop node inside a frame of width 400. -/
theorem overlay_classifier_iff_witness :
    determineIfBackground cexDimmer (some 400) = true :=
  (overlay_classifier_iff cexDimmer (some 400)).mpr
    ⟨⟨0, 0, 400, 200⟩, 400, rfl, rfl, by decide, by decide, by decide,
      Or.inl (by decide)⟩

/-- C7 witness: the serialization applied to a concrete fetched
design. -/
theorem serialized_doc_three_keys_witness :
    (getFigmaDataResult
      [("name", Val.str "f"), ("nodes", Val.arr []),
       ("globalVars", Val.obj [])]).map Prod.fst
        = ["metadata", "nodes", "globalVars"] ∧
    (("name", Val.str "f") ∈
      [("name", Val.str "f")] ∧ ¬ "name" = "nodes" ∧ ¬ "name" = "globalVars") := by
  have h := serialized_doc_three_keys
    [("name", Val.str "f"), ("nodes", Val.arr []), ("globalVars", Val.obj [])]
  exact ⟨h.1, List.mem_singleton.mpr rfl, by decide, by decide⟩

/-- C8 witness: the handler applied to a concrete failed fetch. -/
theorem fetch_failure_single_error_witness :
    handleGetFigmaData (fun _ => "yaml") (Except.error "nope")
        = { isError := true,
            contentTexts := ["Error fetching file: " ++ "nope"] } ∧
    ¬ handleGetFigmaData (fun _ => "yaml") (Except.error "nope")
        = handleGetFigmaData (fun _ => "yaml") (Except.ok []) := by
  have h := fetch_failure_single_error (fun _ => "yaml") "nope"
  exact ⟨h.1, h.2.2 []⟩

/-- C9 witness: the zero-width behavior at the concrete backdrop node
and the concrete tree. -/
theorem zero_width_frame_no_overlay_witness :
    determineIfBackground cexDimmer (some 0) = false ∧
    ¬ "dimmer" ∈ outStates
      (buildHierarchy cexUrls okAnn (some 0) false cexRoot).1 :=
  ⟨(zero_width_frame_no_overlay.1 cexDimmer).1,
   zero_width_frame_no_overlay.2 cexUrls okAnn false cexRoot⟩
